import Mathlib

/-!
Verification of the two data-collection scripts of this repository:
`Repo-Details/fetch_repo_details.py` (GraphQL cursor paginator and metadata
normalizer) and `lfs-details/lfs-repos.py` (REST offset paginators, retrying
transport, LFS audit).  Each Python function is shallowly embedded as an
executable Lean definition; network effects are modelled by passing the
environment's responses explicitly (a list of per-page responses for the
cursor paginator, a page-indexed transport function for the offset
paginators, an attempt-indexed outcome function for the retrying transport).
Print/log/sleep statements are pure I/O and are not modelled.
-/

namespace RepoDetails

/-- One element of `languages.nodes` in the GraphQL response. -/
structure LangNode where
  name : String
deriving DecidableEq

/-- A GraphQL sub-object carrying a single `totalCount` field. -/
structure CountObj where
  totalCount : Nat
deriving DecidableEq

/-- The `defaultBranchRef.target.history` object of the GraphQL response. -/
structure CommitHistory where
  totalCount : Nat
deriving DecidableEq

/-- The `defaultBranchRef.target` object of the GraphQL response. -/
structure CommitTarget where
  history : CommitHistory
deriving DecidableEq

/-- The `defaultBranchRef` object of the GraphQL response (when not null). -/
structure BranchRefObj where
  target : CommitTarget
deriving DecidableEq

/-- One raw repository node of the GraphQL response.  `diskUsage` and
`defaultBranchRef` are nullable in the schema and are the sub-objects the
remote may omit; `languages` stands for `languages.nodes`. -/
structure RepoNode where
  name : String
  diskUsage : Option Int
  visibility : String
  defaultBranchRef : Option BranchRefObj
  branches : CountObj
  pullRequests : CountObj
  mergedPRs : CountObj
  closedPRs : CountObj
  issues : CountObj
  closedIssues : CountObj
  releases : CountObj
  tags : CountObj
  languages : List LangNode
  pushedAt : String
  updatedAt : String
deriving DecidableEq

/-- One flat record appended to `repo_data` by `fetch_data`. -/
structure Record where
  repo_name : String
  repo_size_mb : Rat
  visibility : String
  total_commits : Nat
  total_branches : Nat
  open_prs : Nat
  merged_prs : Nat
  closed_prs : Nat
  open_issues : Nat
  closed_issues : Nat
  releases : Nat
  tags : Nat
  languages : String
  last_pushed_at : String
  last_updated_at : String
deriving DecidableEq

/-- Python's `x or 0` on a nullable numeric value: `None` and `0` both give
`0`, any other number gives itself. -/
def pyOrZero : Option Int → Int
  | none => 0
  | some v => v

/-- Python's `round(x, 2)` rounds half to even at the second decimal. -/
def roundHalfEven (q : Rat) : Int :=
  let f : Int := ⌊q⌋
  let frac : Rat := q - f
  if frac < 1/2 then f
  else if 1/2 < frac then f + 1
  else if f % 2 = 0 then f else f + 1

/-- Python's `round(x, 2)` as a rational. -/
def round2 (q : Rat) : Rat := (roundHalfEven (q * 100) : Rat) / 100

/-- Python's `", ".join(...)` over the language names, with the `"N/A"`
sentinel for an empty (falsy) list, as in
`", ".join([lang['name'] for lang in repo['languages']['nodes']])
 if repo['languages']['nodes'] else "N/A"`. -/
def joinLanguages (langs : List LangNode) : String :=
  if langs.isEmpty then "N/A"
  else String.intercalate ", " (langs.map LangNode.name)

/-- The dictionary appended to `repo_data` for one raw node inside the
`for repo in repos` loop of `fetch_data`. -/
def normalize (repo : RepoNode) : Record :=
  { repo_name := repo.name
    repo_size_mb := round2 ((pyOrZero repo.diskUsage : Rat) / 1024)
    visibility := repo.visibility
    total_commits :=
      match repo.defaultBranchRef with
      | some ref => ref.target.history.totalCount
      | none => 0
    total_branches := repo.branches.totalCount
    open_prs := repo.pullRequests.totalCount
    merged_prs := repo.mergedPRs.totalCount
    closed_prs := repo.closedPRs.totalCount
    open_issues := repo.issues.totalCount
    closed_issues := repo.closedIssues.totalCount
    releases := repo.releases.totalCount
    tags := repo.tags.totalCount
    languages := joinLanguages repo.languages
    last_pushed_at := repo.pushedAt
    last_updated_at := repo.updatedAt }

/-- The `pageInfo` object of one GraphQL page. -/
structure PageInfo where
  hasNextPage : Bool
  endCursor : Option String
deriving DecidableEq

/-- What one `requests.post` inside `fetch_data` can produce:
a 200 response without an `errors` key (`ok`), a 200 response whose JSON
contains an `errors` key (`errorsPayload`), a non-200 status (`httpError`),
or a raised exception (`exn`). -/
inductive GraphQLResponse where
  | ok (nodes : List RepoNode) (pageInfo : PageInfo)
  | errorsPayload
  | httpError (code : Nat)
  | exn
deriving DecidableEq

/-- The conditions `fetch_data` reacts to with `break` (a 200 payload with
an `errors` key, a non-200 status, or an exception). -/
def isFatalResponse : GraphQLResponse → Bool
  | .ok _ _ => false
  | _ => true

/-- The `while has_next_page` loop of `fetch_data`.  The environment is the
list of responses the remote serves to successive requests, consumed in
order.  Returns the accumulated `repo_data` together with the trace of
issued calls, each recorded as the `cursor` variable it was sent with.
An empty response list means the environment never answers, so no further
call is recorded. -/
def fetchLoop : List GraphQLResponse → Option String → List Record →
    List Record × List (Option String)
  | [], _, acc => (acc, [])
  | resp :: rest, cursor, acc =>
    match resp with
    | .ok nodes pinfo =>
      let acc2 := acc ++ nodes.map normalize
      if pinfo.hasNextPage then
        let r := fetchLoop rest pinfo.endCursor acc2
        (r.1, cursor :: r.2)
      else (acc2, [cursor])
    | _ => (acc, [cursor])

/-- Entry point `fetch_data()`: the loop starts with `cursor = None` and
`repo_data = []`. -/
def fetch_data (server : List GraphQLResponse) :
    List Record × List (Option String) :=
  fetchLoop server none []

/-- The `__main__` block: `fetch_data` runs, and `write_csv` is called iff
the returned list is truthy (non-empty); `none` means no output file was
written. -/
def mainOutput (server : List GraphQLResponse) : Option (List Record) :=
  let d := (fetch_data server).1
  if d.isEmpty then none else some d

end RepoDetails

namespace LfsRepos

/-- An HTTP response as `lfs-repos.py` sees it: a status code and a body.
The body type varies with the endpoint (repository list, branch list,
attributes-file payload), so it is a parameter.  Python's truthiness of a
`requests.Response` (`bool(response)` = `response.ok`) is `status < 400`. -/
structure Resp (α : Type) where
  status : Nat
  body : α
deriving DecidableEq

/-- Python truthiness of a `requests.Response`: `ok`, i.e. status below
400.  A 404 response is falsy. -/
def Resp.truthy {α : Type} (r : Resp α) : Bool := r.status < 400

/-- What one `session.get` inside `safe_request` can produce: a response,
a `Timeout`, a `ConnectionError`, or another `RequestException` (the
`HTTPError` raised by `raise_for_status` is delivered as a response here,
since `safe_request` first inspects the status). -/
inductive HttpOutcome (α : Type) where
  | resp (r : Resp α)
  | timeout
  | connError
  | reqExn
deriving DecidableEq

/-- The body of `safe_request`'s `for attempt in range(3)` loop over the
remaining attempts' outcomes, counting attempts made.  Each attempt:
a 404 response is returned as-is; `raise_for_status` turns any other
status at or above 400 into a caught `RequestException` (retry); any other
response is returned; `Timeout`, `ConnectionError` and other
`RequestException`s are caught and the loop retries. -/
def safeRequestAux {α : Type} : List (HttpOutcome α) → Nat →
    Option (Resp α) × Nat
  | [], n => (none, n)
  | o :: rest, n =>
    match o with
    | .resp r =>
      if r.status = 404 then (some r, n + 1)
      else if 400 ≤ r.status then safeRequestAux rest (n + 1)
      else (some r, n + 1)
    | _ => safeRequestAux rest (n + 1)

/-- Function `safe_request(url)`: three attempts, whose outcomes the environment
supplies per attempt index; after the loop, `return None`.  Returns the
result together with the number of attempts made. -/
def safe_request {α : Type} (outcomes : Nat → HttpOutcome α) :
    Option (Resp α) × Nat :=
  safeRequestAux [outcomes 0, outcomes 1, outcomes 2] 0

/-- One element of the JSON array returned by the repository-listing
endpoint; `main` reads its `name` field. -/
structure RepoItem where
  name : String
deriving DecidableEq

/-- One element of the JSON array returned by the branch-listing endpoint;
`get_branches` reads its `name` field. -/
structure BranchObj where
  name : String
deriving DecidableEq

/-- The `while True` loop of `get_repositories`.  `transport page` is what
`safe_request` returns for that page's URL.  `fuel` bounds the recursion
(the Python loop has no bound; every claim supplies enough fuel).  Returns
the accumulated `repos` and the trace of page numbers requested.
`if not response: return repos` fires on `None` and on any falsy (status
at or above 400) response; `if not data: break` fires on an empty page. -/
def get_repositories_loop (transport : Nat → Option (Resp (List RepoItem))) :
    Nat → Nat → List RepoItem → List RepoItem × List Nat
  | 0, _, acc => (acc, [])
  | fuel + 1, page, acc =>
    match transport page with
    | none => (acc, [page])
    | some r =>
      if ¬ r.truthy then (acc, [page])
      else if r.body.isEmpty then (acc, [page])
      else
        let step := get_repositories_loop transport fuel (page + 1) (acc ++ r.body)
        (step.1, page :: step.2)

/-- Function `get_repositories(org)`: the loop starts at `page = 1` with
`repos = []`. -/
def get_repositories (transport : Nat → Option (Resp (List RepoItem)))
    (fuel : Nat) : List RepoItem × List Nat :=
  get_repositories_loop transport fuel 1 []

/-- The `while True` loop of `get_branches`, identical in shape to
`get_repositories` except that it accumulates
`[branch["name"] for branch in data]`. -/
def get_branches_loop (transport : Nat → Option (Resp (List BranchObj))) :
    Nat → Nat → List String → List String × List Nat
  | 0, _, acc => (acc, [])
  | fuel + 1, page, acc =>
    match transport page with
    | none => (acc, [page])
    | some r =>
      if ¬ r.truthy then (acc, [page])
      else if r.body.isEmpty then (acc, [page])
      else
        let step := get_branches_loop transport fuel (page + 1)
          (acc ++ r.body.map BranchObj.name)
        (step.1, page :: step.2)

/-- Function `get_branches(repo_name)`: the loop starts at `page = 1` with
`branches = []`. -/
def get_branches (transport : Nat → Option (Resp (List BranchObj)))
    (fuel : Nat) : List String × List Nat :=
  get_branches_loop transport fuel 1 []

/-- The `.gitattributes` payload as `check_lfs_usage` consumes it: either
`base64.b64decode(...).decode("utf-8")` succeeds with this string, or the
decode raises (the caught `Exception` branch). -/
inductive AttrContent where
  | decoded (s : String)
  | decodeFailure
deriving DecidableEq

/-- Python's `"filter=lfs" in decoded_content`: the marker occurs as a
contiguous substring. -/
def containsMarker (s : String) : Bool :=
  decide ("filter=lfs".data <:+: s.data)

/-- Function `check_lfs_usage(repo_name, branch_name)`: one `safe_request` for the
branch's `.gitattributes`, then `if response:` (truthiness, so a 404
response skips the whole block), the dead `status == 404` branch, the
`status == 200` decode-and-search with its `except` fallthrough, and the
final `return False`. -/
def check_lfs_usage (outcomes : Nat → HttpOutcome AttrContent) : Bool :=
  match (safe_request outcomes).1 with
  | none => false
  | some r =>
    if r.truthy then
      if r.status = 404 then false
      else if r.status = 200 then
        match r.body with
        | .decoded s => containsMarker s
        | .decodeFailure => false
      else false
    else false

/-- The per-repository branch loop of `main`:
`lfs_used = "No"; for branch in branches: if check_lfs_usage(...):
lfs_used = "Yes"; break`.  Returns the final `lfs_used` together with the
trace of branches actually probed, in order. -/
def repoAudit (probe : String → Bool) : List String → String × List String
  | [] => ("No", [])
  | b :: rest =>
    if probe b then ("Yes", [b])
    else
      let r := repoAudit probe rest
      (r.1, b :: r.2)

end LfsRepos

namespace RepoDetails

/-- A sample raw node whose nullable sub-objects are both absent. -/
def nodeNoBranch : RepoNode :=
  { name := "empty-repo", diskUsage := none, visibility := "PRIVATE"
    defaultBranchRef := none, branches := ⟨0⟩, pullRequests := ⟨0⟩
    mergedPRs := ⟨0⟩, closedPRs := ⟨0⟩, issues := ⟨0⟩, closedIssues := ⟨0⟩
    releases := ⟨0⟩, tags := ⟨0⟩, languages := [], pushedAt := "2024-01-01"
    updatedAt := "2024-01-01" }

/-- A sample raw node with two languages. -/
def nodeTwoLangs : RepoNode :=
  { nodeNoBranch with name := "polyglot", languages := [⟨"Python"⟩, ⟨"Go"⟩] }

/-- A server trace: one successful page with one node and
`hasNextPage = true`, then a 200 payload carrying an `errors` key. -/
def fatalServer : List GraphQLResponse :=
  [.ok [nodeNoBranch] ⟨true, some "c1"⟩, .errorsPayload]

/-- A server trace: two successful pages, the second of which is last. -/
def twoPageServer : List GraphQLResponse :=
  [.ok [nodeNoBranch] ⟨true, some "c1"⟩, .ok [nodeTwoLangs] ⟨false, some "c2"⟩]

end RepoDetails

namespace RepoDetails

/-- C4: for every raw node, each nullable numeric sub-object defaults to 0
in the flat record: a node whose `defaultBranchRef` is null normalizes to
`total_commits = 0`, and a node whose `diskUsage` is null normalizes to
`repo_size_mb = 0`; normalization is a total function, so no missing-field
fault can occur. -/
theorem normalize_defaults_to_zero (repo : RepoNode)
    (hbr : repo.defaultBranchRef = none) :
    (normalize repo).total_commits = 0 ∧
    (repo.diskUsage = none → (normalize repo).repo_size_mb = 0) := by
  constructor
  · simp [normalize, hbr]
  · intro hdu
    simp [normalize, hdu, pyOrZero, round2, roundHalfEven]

/-- Witness for `normalize_defaults_to_zero` at the concrete node
`nodeNoBranch`. -/
theorem normalize_defaults_to_zero_witness :
    (normalize nodeNoBranch).total_commits = 0 ∧
    (normalize nodeNoBranch).repo_size_mb = 0 := by
  have h := normalize_defaults_to_zero nodeNoBranch rfl
  exact ⟨h.1, h.2 rfl⟩

/-- C9: for every raw node, an empty language list normalizes to the
sentinel string `"N/A"`, and a non-empty one to the comma-space join of
the names in arrival order. -/
theorem normalize_languages_spec (repo : RepoNode) :
    (repo.languages = [] → (normalize repo).languages = "N/A") ∧
    (∀ l ls, repo.languages = l :: ls →
      (normalize repo).languages =
        String.intercalate ", " ((l :: ls).map LangNode.name)) := by
  constructor
  · intro h
    simp [normalize, joinLanguages, h]
  · intro l ls h
    simp [normalize, joinLanguages, h]

/-- Witness for `normalize_languages_spec`: the two-language node joins to
`"Python, Go"` and the empty-language node maps to `"N/A"`. -/
theorem normalize_languages_spec_witness :
    (normalize nodeNoBranch).languages = "N/A" ∧
    (normalize nodeTwoLangs).languages = "Python, Go" := by
  constructor
  · exact (normalize_languages_spec nodeNoBranch).1 rfl
  · have h := (normalize_languages_spec nodeTwoLangs).2 ⟨"Python"⟩ [⟨"Go"⟩] rfl
    rw [h]
    rfl

end RepoDetails

namespace LfsRepos

/-- C5: if all three attempts of one `safe_request` call end in a timeout
or a connection error, the call returns the sentinel `None` (after the
full 3-attempt budget) instead of raising, and a paginator receiving that
sentinel proceeds normally, returning its accumulated items. -/
theorem safe_request_exhaustion (outcomes : Nat → HttpOutcome (List RepoItem))
    (h : ∀ i, i < 3 →
      outcomes i = HttpOutcome.timeout ∨ outcomes i = HttpOutcome.connError) :
    safe_request outcomes = (none, 3) ∧
    ∀ fuel page acc,
      get_repositories_loop (fun _ => (safe_request outcomes).1)
        (fuel + 1) page acc = (acc, [page]) := by
  have h0 := h 0 (by omega)
  have h1 := h 1 (by omega)
  have h2 := h 2 (by omega)
  have hsr : safe_request outcomes = (none, 3) := by
    rcases h0 with h0 | h0 <;> rcases h1 with h1 | h1 <;>
      rcases h2 with h2 | h2 <;>
        simp [safe_request, safeRequestAux, h0, h1, h2]
  refine ⟨hsr, ?_⟩
  intro fuel page acc
  simp [get_repositories_loop, hsr]

/-- Witness for `safe_request_exhaustion`: all three attempts time out. -/
theorem safe_request_exhaustion_witness :
    safe_request (fun _ => (HttpOutcome.timeout : HttpOutcome (List RepoItem)))
      = (none, 3) ∧
    get_repositories_loop
      (fun _ => (safe_request
        (fun _ => (HttpOutcome.timeout : HttpOutcome (List RepoItem)))).1)
      5 1 [] = ([], [1]) := by
  have h := safe_request_exhaustion (fun _ => HttpOutcome.timeout)
    (fun i _ => Or.inl rfl)
  exact ⟨h.1, h.2 4 1 []⟩

/-- C7: a 404 response on the first attempt is returned by `safe_request`
immediately as a normal result, with exactly one attempt made (no retry),
and `check_lfs_usage` maps it to `false` without raising. -/
theorem probe_404_no_retry (outcomes : Nat → HttpOutcome AttrContent)
    (r : Resp AttrContent) (h0 : outcomes 0 = HttpOutcome.resp r)
    (h404 : r.status = 404) :
    safe_request outcomes = (some r, 1) ∧
    check_lfs_usage outcomes = false := by
  have hsr : safe_request outcomes = (some r, 1) := by
    simp [safe_request, safeRequestAux, h0, h404]
  refine ⟨hsr, ?_⟩
  simp [check_lfs_usage, hsr, Resp.truthy, h404]

/-- Witness for `probe_404_no_retry` at a concrete 404 response. -/
theorem probe_404_no_retry_witness :
    safe_request (fun _ => HttpOutcome.resp
      (⟨404, AttrContent.decodeFailure⟩ : Resp AttrContent))
      = (some ⟨404, AttrContent.decodeFailure⟩, 1) ∧
    check_lfs_usage (fun _ => HttpOutcome.resp
      (⟨404, AttrContent.decodeFailure⟩ : Resp AttrContent)) = false :=
  probe_404_no_retry (fun _ => HttpOutcome.resp ⟨404, AttrContent.decodeFailure⟩)
    ⟨404, AttrContent.decodeFailure⟩ rfl rfl

/-- Helper: whatever the attempts' outcomes, the retry loop of
`safe_request` either yields `none` or a response whose status is 404 or
below 400 (every other status was converted to a caught exception by
`raise_for_status` and retried). -/
theorem safeRequestAux_shape {α : Type} (l : List (HttpOutcome α)) (n : Nat) :
    (safeRequestAux l n).1 = none ∨
      ∃ r, (safeRequestAux l n).1 = some r ∧
        (r.status = 404 ∨ r.status < 400) := by
  induction l generalizing n with
  | nil => simp [safeRequestAux]
  | cons o rest ih =>
    cases o with
    | resp r =>
      by_cases h404 : r.status = 404
      · right
        exact ⟨r, by simp [safeRequestAux, h404], Or.inl h404⟩
      · by_cases herr : 400 ≤ r.status
        · simpa [safeRequestAux, h404, herr] using ih (n + 1)
        · right
          exact ⟨r, by simp [safeRequestAux, h404, herr], Or.inr (by omega)⟩
    | timeout => simpa [safeRequestAux] using ih (n + 1)
    | connError => simpa [safeRequestAux] using ih (n + 1)
    | reqExn => simpa [safeRequestAux] using ih (n + 1)

/-- C10: `safe_request` is total over HTTP outcomes: it never propagates
an exception, returning `none` or a response that is a 404 or a non-error
status; and when all three attempts deliver non-404 error statuses (for
example 403 or 400), each is caught and retried until the 3-attempt budget
runs out, yielding the `none` sentinel. -/
theorem safe_request_total {α : Type} (outcomes : Nat → HttpOutcome α) :
    ((safe_request outcomes).1 = none ∨
      ∃ r, (safe_request outcomes).1 = some r ∧
        (r.status = 404 ∨ r.status < 400)) ∧
    ((∀ i, i < 3 → ∃ r, outcomes i = HttpOutcome.resp r ∧
        r.status ≠ 404 ∧ 400 ≤ r.status) →
      safe_request outcomes = (none, 3)) := by
  constructor
  · exact safeRequestAux_shape [outcomes 0, outcomes 1, outcomes 2] 0
  · intro h
    obtain ⟨r0, hr0, h04, h40⟩ := h 0 (by omega)
    obtain ⟨r1, hr1, h14, h41⟩ := h 1 (by omega)
    obtain ⟨r2, hr2, h24, h42⟩ := h 2 (by omega)
    simp [safe_request, safeRequestAux, hr0, hr1, hr2,
      h04, h40, h14, h41, h24, h42]

/-- Witness for `safe_request_total`: three straight 403 responses are
retried and then collapse to the sentinel. -/
theorem safe_request_total_witness :
    safe_request (fun _ => HttpOutcome.resp
      (⟨403, AttrContent.decodeFailure⟩ : Resp AttrContent)) = (none, 3) :=
  (safe_request_total
    (fun _ => HttpOutcome.resp ⟨403, AttrContent.decodeFailure⟩)).2
    (fun i _ => ⟨⟨403, AttrContent.decodeFailure⟩, rfl, by decide, by decide⟩)

/-- C6: when the transport returns the `None` sentinel for the current
page, both offset paginators stop and return what they accumulated so far:
stated directly for an arbitrary accumulator, and compositionally for a
successful non-empty page followed by a failing one, whose items survive
in the result. -/
theorem offset_paginator_partial_on_failure
    (tr : Nat → Option (Resp (List RepoItem)))
    (tb : Nat → Option (Resp (List BranchObj)))
    (fuel page : Nat) :
    (∀ acc, tr page = none →
      get_repositories_loop tr (fuel + 1) page acc = (acc, [page])) ∧
    (∀ acc r, tr page = some r → r.truthy = true → r.body ≠ [] →
      tr (page + 1) = none →
      get_repositories_loop tr (fuel + 2) page acc
        = (acc ++ r.body, [page, page + 1])) ∧
    (∀ acc, tb page = none →
      get_branches_loop tb (fuel + 1) page acc = (acc, [page])) ∧
    (∀ acc r, tb page = some r → r.truthy = true → r.body ≠ [] →
      tb (page + 1) = none →
      get_branches_loop tb (fuel + 2) page acc
        = (acc ++ r.body.map BranchObj.name, [page, page + 1])) := by
  refine ⟨?_, ?_, ?_, ?_⟩
  · intro acc hnone
    simp [get_repositories_loop, hnone]
  · intro acc r hsome htru hne hnone
    have hb : r.body.isEmpty = false := by
      simpa [List.isEmpty_iff] using hne
    simp [get_repositories_loop, hsome, htru, hb, hnone]
  · intro acc hnone
    simp [get_branches_loop, hnone]
  · intro acc r hsome htru hne hnone
    have hb : r.body.isEmpty = false := by
      simpa [List.isEmpty_iff] using hne
    simp [get_branches_loop, hsome, htru, hb, hnone]

/-- A concrete transport for the witnesses: page 1 delivers two
repositories, every later page has no result. -/
def oneGoodPageRepos : Nat → Option (Resp (List RepoItem)) :=
  fun page => if page = 1 then some ⟨200, [⟨"alpha"⟩, ⟨"beta"⟩]⟩ else none

/-- A concrete transport for the witnesses: page 1 delivers one branch,
every later page has no result. -/
def oneGoodPageBranches : Nat → Option (Resp (List BranchObj)) :=
  fun page => if page = 1 then some ⟨200, [⟨"main"⟩]⟩ else none

/-- Witness for `offset_paginator_partial_on_failure`: one good page, then
a transport failure; the first page's items are returned. -/
theorem offset_paginator_partial_on_failure_witness :
    get_repositories_loop oneGoodPageRepos 5 1 []
      = ([⟨"alpha"⟩, ⟨"beta"⟩], [1, 2]) ∧
    get_branches_loop oneGoodPageBranches 5 1 []
      = (["main"], [1, 2]) := by
  have h := offset_paginator_partial_on_failure
    oneGoodPageRepos oneGoodPageBranches 3 1
  constructor
  · exact h.2.1 [] ⟨200, [⟨"alpha"⟩, ⟨"beta"⟩]⟩ rfl (by decide) (by decide) rfl
  · exact h.2.2.2 [] ⟨200, [⟨"main"⟩]⟩ rfl (by decide) (by decide) rfl

/-- Helper: the repository paginator requests consecutive page numbers
starting from its current page. -/
theorem get_repositories_loop_calls_range
    (tr : Nat → Option (Resp (List RepoItem))) :
    ∀ fuel page acc, (get_repositories_loop tr fuel page acc).2
      = List.range' page (get_repositories_loop tr fuel page acc).2.length := by
  intro fuel
  induction fuel with
  | zero =>
    intro page acc
    simp [get_repositories_loop]
  | succ n ih =>
    intro page acc
    cases htr : tr page with
    | none => simp [get_repositories_loop, htr, List.range']
    | some r =>
      by_cases ht : r.truthy = true
      · by_cases hb : r.body.isEmpty = true
        · simp [get_repositories_loop, htr, ht, hb, List.range']
        · simp only [get_repositories_loop, htr, ht, hb]
          simp [List.range'_succ]
          exact ih (page + 1) (acc ++ r.body)
      · simp [get_repositories_loop, htr, ht, List.range']

/-- Helper: the branch paginator requests consecutive page numbers
starting from its current page. -/
theorem get_branches_loop_calls_range
    (tb : Nat → Option (Resp (List BranchObj))) :
    ∀ fuel page acc, (get_branches_loop tb fuel page acc).2
      = List.range' page (get_branches_loop tb fuel page acc).2.length := by
  intro fuel
  induction fuel with
  | zero =>
    intro page acc
    simp [get_branches_loop]
  | succ n ih =>
    intro page acc
    cases htb : tb page with
    | none => simp [get_branches_loop, htb, List.range']
    | some r =>
      by_cases ht : r.truthy = true
      · by_cases hb : r.body.isEmpty = true
        · simp [get_branches_loop, htb, ht, hb, List.range']
        · simp only [get_branches_loop, htb, ht, hb]
          simp [List.range'_succ]
          exact ih (page + 1) (acc ++ r.body.map BranchObj.name)
      · simp [get_branches_loop, htb, ht, List.range']

/-- Helper: with at least one unit of fuel, the repository paginator's
first recorded call is the current page. -/
theorem get_repositories_loop_calls_head
    (tr : Nat → Option (Resp (List RepoItem))) (fuel page : Nat)
    (acc : List RepoItem) :
    (get_repositories_loop tr (fuel + 1) page acc).2[0]? = some page := by
  cases htr : tr page with
  | none => simp [get_repositories_loop, htr]
  | some r =>
    by_cases ht : r.truthy = true
    · by_cases hb : r.body.isEmpty = true
      · simp [get_repositories_loop, htr, ht, hb]
      · simp [get_repositories_loop, htr, ht, hb]
    · simp [get_repositories_loop, htr, ht]

/-- Helper: with at least one unit of fuel, the branch paginator's first
recorded call is the current page. -/
theorem get_branches_loop_calls_head
    (tb : Nat → Option (Resp (List BranchObj))) (fuel page : Nat)
    (acc : List String) :
    (get_branches_loop tb (fuel + 1) page acc).2[0]? = some page := by
  cases htb : tb page with
  | none => simp [get_branches_loop, htb]
  | some r =>
    by_cases ht : r.truthy = true
    · by_cases hb : r.body.isEmpty = true
      · simp [get_branches_loop, htb, ht, hb]
      · simp [get_branches_loop, htb, ht, hb]
    · simp [get_branches_loop, htb, ht]

/-- Helper: one unfolding of the repository paginator on a truthy,
non-empty page. -/
theorem get_repositories_loop_cons
    (tr : Nat → Option (Resp (List RepoItem))) (fuel page : Nat)
    (acc : List RepoItem) (r : Resp (List RepoItem))
    (hsome : tr page = some r) (htru : r.truthy = true)
    (hne : r.body ≠ []) :
    get_repositories_loop tr (fuel + 1) page acc
      = ((get_repositories_loop tr fuel (page + 1) (acc ++ r.body)).1,
         page :: (get_repositories_loop tr fuel (page + 1) (acc ++ r.body)).2) := by
  have hb : r.body.isEmpty = false := by
    simpa [List.isEmpty_iff] using hne
  simp [get_repositories_loop, hsome, htru, hb]

/-- Helper: one unfolding of the branch paginator on a truthy, non-empty
page. -/
theorem get_branches_loop_cons
    (tb : Nat → Option (Resp (List BranchObj))) (fuel page : Nat)
    (acc : List String) (r : Resp (List BranchObj))
    (hsome : tb page = some r) (htru : r.truthy = true)
    (hne : r.body ≠ []) :
    get_branches_loop tb (fuel + 1) page acc
      = ((get_branches_loop tb fuel (page + 1)
            (acc ++ r.body.map BranchObj.name)).1,
         page :: (get_branches_loop tb fuel (page + 1)
            (acc ++ r.body.map BranchObj.name)).2) := by
  have hb : r.body.isEmpty = false := by
    simpa [List.isEmpty_iff] using hne
  simp [get_branches_loop, hsome, htru, hb]

/-- C2: in both offset paginators, an empty (falsy) page terminates the
loop, returning the items accumulated so far after exactly that one call;
a non-empty page causes exactly one further call, made with the page
counter incremented by one (the trace of requested pages is always the
consecutive run starting at the first page). -/
theorem offset_paginator_step
    (tr : Nat → Option (Resp (List RepoItem)))
    (tb : Nat → Option (Resp (List BranchObj)))
    (fuel page : Nat) :
    (∀ acc r, tr page = some r → r.truthy = true → r.body = [] →
      get_repositories_loop tr (fuel + 1) page acc = (acc, [page])) ∧
    (∀ acc r, tr page = some r → r.truthy = true → r.body ≠ [] →
      (get_repositories_loop tr (fuel + 2) page acc).2[1]? = some (page + 1)) ∧
    (∀ fuel' acc, (get_repositories_loop tr fuel' page acc).2
      = List.range' page (get_repositories_loop tr fuel' page acc).2.length) ∧
    (∀ acc r, tb page = some r → r.truthy = true → r.body = [] →
      get_branches_loop tb (fuel + 1) page acc = (acc, [page])) ∧
    (∀ acc r, tb page = some r → r.truthy = true → r.body ≠ [] →
      (get_branches_loop tb (fuel + 2) page acc).2[1]? = some (page + 1)) ∧
    (∀ fuel' acc, (get_branches_loop tb fuel' page acc).2
      = List.range' page (get_branches_loop tb fuel' page acc).2.length) := by
  refine ⟨?_, ?_, ?_, ?_, ?_, ?_⟩
  · intro acc r hsome htru hbody
    simp [get_repositories_loop, hsome, htru, hbody]
  · intro acc r hsome htru hne
    rw [get_repositories_loop_cons tr (fuel + 1) page acc r hsome htru hne]
    simpa using get_repositories_loop_calls_head tr fuel (page + 1)
      (acc ++ r.body)
  · intro fuel' acc
    exact get_repositories_loop_calls_range tr fuel' page acc
  · intro acc r hsome htru hbody
    simp [get_branches_loop, hsome, htru, hbody]
  · intro acc r hsome htru hne
    rw [get_branches_loop_cons tb (fuel + 1) page acc r hsome htru hne]
    simpa using get_branches_loop_calls_head tb fuel (page + 1)
      (acc ++ r.body.map BranchObj.name)
  · intro fuel' acc
    exact get_branches_loop_calls_range tb fuel' page acc

/-- A concrete transport for the C2 witness: page 1 has one repository,
page 2 is empty, later pages fail. -/
def twoPageRepos : Nat → Option (Resp (List RepoItem)) :=
  fun page =>
    if page = 1 then some ⟨200, [⟨"alpha"⟩]⟩
    else if page = 2 then some ⟨200, []⟩
    else none

/-- A concrete transport for the C2 witness: page 1 is already empty. -/
def emptyPageBranches : Nat → Option (Resp (List BranchObj)) :=
  fun page => if page = 1 then some ⟨200, []⟩ else none

/-- Witness for `offset_paginator_step`: a non-empty page 1 leads to a
call for page 2; an empty first page terminates after one call. -/
theorem offset_paginator_step_witness :
    (get_repositories_loop twoPageRepos 5 1 []).2[1]? = some 2 ∧
    get_branches_loop emptyPageBranches 4 1 [] = ([], [1]) := by
  have h := offset_paginator_step twoPageRepos emptyPageBranches 3 1
  constructor
  · exact h.2.1 [] ⟨200, [⟨"alpha"⟩]⟩ rfl (by decide) (by decide)
  · exact h.2.2.2.1 [] ⟨200, []⟩ rfl (by decide) rfl

/-- Helper: the branch loop of `main` yields `"Yes"` exactly when some
branch passes the probe, and examines branches in order up to and
including the first passing one. -/
theorem repoAudit_spec (probe : String → Bool) (branches : List String) :
    (repoAudit probe branches).1
      = (if branches.any probe then "Yes" else "No") ∧
    (repoAudit probe branches).2
      = branches.take (branches.findIdx probe + 1) := by
  induction branches with
  | nil => simp [repoAudit]
  | cons b rest ih =>
    by_cases hb : probe b
    · simp [repoAudit, hb, List.findIdx_cons]
    · simp [repoAudit, hb, List.findIdx_cons, ih.1, ih.2]

/-- Helper: `check_lfs_usage` answers `true` exactly when its
`safe_request` produced a 200 response whose payload decodes to a string
containing the `"filter=lfs"` marker. -/
theorem check_lfs_usage_iff (outcomes : Nat → HttpOutcome AttrContent) :
    check_lfs_usage outcomes = true ↔
      ∃ s, (safe_request outcomes).1
          = some ⟨200, AttrContent.decoded s⟩ ∧ containsMarker s = true := by
  unfold check_lfs_usage
  cases hsr : (safe_request outcomes).1 with
  | none => simp
  | some r =>
    obtain ⟨st, body⟩ := r
    by_cases h200 : st = 200
    · subst h200
      cases body with
      | decoded s => simp [Resp.truthy]
      | decodeFailure => simp [Resp.truthy]
    · by_cases htru : st < 400
      · by_cases h404 : st = 404
        · omega
        · simp [Resp.truthy, htru, h404, h200, Ne.symm h200]
      · simp [Resp.truthy, htru, h200, Ne.symm h200]

/-- C3: for every repository, the audit result is `"Yes"` iff at least one
examined branch's `check_lfs_usage` probe returns `true`, and `"No"`
otherwise; branches are examined in paginator order, stopping at the first
passing branch; and the probe returns `true` exactly when the branch's
attributes file came back with status 200 and its decoded content contains
the `"filter=lfs"` marker. -/
theorem lfs_audit_spec (bo : String → Nat → HttpOutcome AttrContent)
    (branches : List String) :
    ((repoAudit (fun b => check_lfs_usage (bo b)) branches).1
      = if branches.any (fun b => check_lfs_usage (bo b))
        then "Yes" else "No") ∧
    ((repoAudit (fun b => check_lfs_usage (bo b)) branches).1 = "Yes"
      ↔ ∃ b ∈ branches, check_lfs_usage (bo b) = true) ∧
    ((repoAudit (fun b => check_lfs_usage (bo b)) branches).2
      = branches.take
          (branches.findIdx (fun b => check_lfs_usage (bo b)) + 1)) ∧
    (∀ outcomes : Nat → HttpOutcome AttrContent,
      check_lfs_usage outcomes = true ↔
        ∃ s, (safe_request outcomes).1
            = some ⟨200, AttrContent.decoded s⟩ ∧ containsMarker s = true) := by
  have h := repoAudit_spec (fun b => check_lfs_usage (bo b)) branches
  refine ⟨h.1, ?_, h.2, check_lfs_usage_iff⟩
  rw [h.1]
  constructor
  · intro hyes
    by_cases hany : branches.any (fun b => check_lfs_usage (bo b)) = true
    · exact List.any_eq_true.mp hany
    · rw [if_neg hany] at hyes
      exact absurd hyes (by decide)
  · intro hex
    rw [if_pos (List.any_eq_true.mpr hex)]

end LfsRepos

namespace RepoDetails

/-- Helper: whatever the first response, the cursor paginator's first
recorded call carries the current cursor. -/
theorem fetchLoop_calls_head (resp : GraphQLResponse)
    (rest : List GraphQLResponse) (cursor : Option String)
    (acc : List Record) :
    (fetchLoop (resp :: rest) cursor acc).2[0]? = some cursor := by
  cases resp with
  | ok nodes pinfo =>
    by_cases hnp : pinfo.hasNextPage = true
    · simp [fetchLoop, hnp]
    · simp [fetchLoop, hnp]
  | errorsPayload => simp [fetchLoop]
  | httpError code => simp [fetchLoop]
  | exn => simp [fetchLoop]

/-- Helper: one unfolding of the cursor paginator on a successful page
whose `hasNextPage` flag is set. -/
theorem fetchLoop_ok_next (nodes : List RepoNode) (pinfo : PageInfo)
    (rest : List GraphQLResponse) (cursor : Option String)
    (acc : List Record) (hnp : pinfo.hasNextPage = true) :
    fetchLoop (GraphQLResponse.ok nodes pinfo :: rest) cursor acc
      = ((fetchLoop rest pinfo.endCursor (acc ++ nodes.map normalize)).1,
         cursor ::
           (fetchLoop rest pinfo.endCursor (acc ++ nodes.map normalize)).2) := by
  simp [fetchLoop, hnp]

/-- Helper: the cursor discipline of `fetch_data`'s loop, for an arbitrary
starting cursor and accumulator: a consumed page with `hasNextPage = false`
is the last call, and one with `hasNextPage = true` is followed (when the
environment answers again) by exactly the call carrying its `endCursor`. -/
theorem fetchLoop_cursor_spec :
    ∀ (server : List GraphQLResponse) (cursor : Option String)
      (acc : List Record) (i : Nat) (nodes : List RepoNode)
      (pinfo : PageInfo),
      server[i]? = some (GraphQLResponse.ok nodes pinfo) →
      i < (fetchLoop server cursor acc).2.length →
      (pinfo.hasNextPage = false →
        (fetchLoop server cursor acc).2.length = i + 1) ∧
      (pinfo.hasNextPage = true → i + 1 < server.length →
        i + 1 < (fetchLoop server cursor acc).2.length ∧
        (fetchLoop server cursor acc).2[i + 1]? = some pinfo.endCursor) := by
  intro server
  induction server with
  | nil =>
    intro cursor acc i nodes pinfo hget
    simp at hget
  | cons resp rest ih =>
    intro cursor acc i nodes pinfo hget hlt
    cases i with
    | zero =>
      simp only [List.getElem?_cons_zero, Option.some_inj] at hget
      subst hget
      by_cases hnp : pinfo.hasNextPage = true
      · constructor
        · intro hfalse
          rw [hnp] at hfalse
          cases hfalse
        intro htriv hlen
        cases rest with
        | nil => simp at hlen
        | cons r2 rest2 =>
          have hhead := fetchLoop_calls_head r2 rest2 pinfo.endCursor
            (acc ++ nodes.map normalize)
          have hpos : 0 < (fetchLoop (r2 :: rest2) pinfo.endCursor
              (acc ++ nodes.map normalize)).2.length := by
            rcases List.getElem?_eq_some.mp hhead with ⟨hlt0, _⟩
            exact hlt0
          rw [fetchLoop_ok_next nodes pinfo (r2 :: rest2) cursor acc hnp]
          exact ⟨by simpa using hpos, by simpa using hhead⟩
      · rw [Bool.not_eq_true] at hnp
        refine ⟨fun _ => by simp [fetchLoop, hnp], ?_⟩
        intro htrue
        rw [hnp] at htrue
        cases htrue
    | succ j =>
      simp only [List.getElem?_cons_succ] at hget
      cases resp with
      | ok nodes0 pinfo0 =>
        by_cases hnp0 : pinfo0.hasNextPage = true
        · rw [fetchLoop_ok_next nodes0 pinfo0 rest cursor acc hnp0] at hlt ⊢
          have hlt' : j < (fetchLoop rest pinfo0.endCursor
              (acc ++ nodes0.map normalize)).2.length := by
            simpa using hlt
          have hin := ih pinfo0.endCursor (acc ++ nodes0.map normalize)
            j nodes pinfo hget hlt'
          constructor
          · intro hfalse
            have := hin.1 hfalse
            simpa using this
          · intro htrue hslen
            have hslen' : j + 1 < rest.length := by
              simpa using hslen
            have := hin.2 htrue hslen'
            exact ⟨by simpa using this.1, by simpa using this.2⟩
        · rw [Bool.not_eq_true] at hnp0
          simp [fetchLoop, hnp0] at hlt
      | errorsPayload => simp [fetchLoop] at hlt
      | httpError code => simp [fetchLoop] at hlt
      | exn => simp [fetchLoop] at hlt

/-- C1: in `fetch_data`'s cursor paginator, the initial call carries the
null cursor; for every consumed page response, a further call is issued
iff its `hasNextPage` flag is true (given the environment answers again),
that further call carries exactly the `endCursor` of the immediately
preceding response, and a page with `hasNextPage = false` is the last call
of the run. -/
theorem cursor_paginator_spec (server : List GraphQLResponse) :
    (server ≠ [] → (fetch_data server).2[0]? = some none) ∧
    (∀ i nodes pinfo,
      server[i]? = some (GraphQLResponse.ok nodes pinfo) →
      i < (fetch_data server).2.length →
      (pinfo.hasNextPage = false →
        (fetch_data server).2.length = i + 1) ∧
      (pinfo.hasNextPage = true → i + 1 < server.length →
        i + 1 < (fetch_data server).2.length ∧
        (fetch_data server).2[i + 1]? = some pinfo.endCursor)) := by
  constructor
  · intro hne
    cases server with
    | nil => exact absurd rfl hne
    | cons r rest => exact fetchLoop_calls_head r rest none []
  · intro i nodes pinfo hget hlt
    exact fetchLoop_cursor_spec server none [] i nodes pinfo hget hlt

/-- Witness for `cursor_paginator_spec` on the concrete two-page trace:
the first call is null-cursored, page 1 (`hasNextPage = true`,
`endCursor = "c1"`) is followed by a call carrying `"c1"`, and page 2
(`hasNextPage = false`) ends the run at exactly two calls. -/
theorem cursor_paginator_spec_witness :
    (fetch_data twoPageServer).2[0]? = some none ∧
    1 < (fetch_data twoPageServer).2.length ∧
    (fetch_data twoPageServer).2[1]? = some (some "c1") ∧
    (fetch_data twoPageServer).2.length = 2 := by
  have h := cursor_paginator_spec twoPageServer
  have h0 := h.2 0 [nodeNoBranch] ⟨true, some "c1"⟩ rfl (by decide)
  have h1 := h.2 1 [nodeTwoLangs] ⟨false, some "c2"⟩ rfl (by decide)
  exact ⟨h.1 (by decide), ((h0.2) rfl (by decide)).1,
    ((h0.2) rfl (by decide)).2, h1.1 rfl⟩

/-- C8 counterexample: in the concrete run `fatalServer`, the second
issued call receives a 200 payload carrying an `errors` key — a fatal
condition — yet the run still writes an output file containing the record
accumulated from page 1, contradicting the claim that a run hit by a
fatal condition writes no output file. -/
theorem fatal_still_writes_output :
    fatalServer[1]? = some GraphQLResponse.errorsPayload ∧
    (fetch_data fatalServer).2.length = 2 ∧
    mainOutput fatalServer ≠ none ∧
    mainOutput fatalServer = some [normalize nodeNoBranch] := by
  have hm : mainOutput fatalServer = some [normalize nodeNoBranch] := rfl
  exact ⟨rfl, rfl, by simp [hm], hm⟩

/-- C8 amended: on a fatal condition (errors payload, non-200 status, or
exception) `fetch_data` stops immediately, issuing no further call and
returning exactly the records accumulated before the fatal response; the
run writes no output file iff nothing had been accumulated — in
particular, a fatal on the very first page produces no output file. -/
theorem fatal_aborts_fetch_partial_output :
    (∀ (resp : GraphQLResponse) rest cursor acc,
      isFatalResponse resp = true →
      fetchLoop (resp :: rest) cursor acc = (acc, [cursor])) ∧
    (∀ (resp : GraphQLResponse) rest, isFatalResponse resp = true →
      mainOutput (resp :: rest) = none) ∧
    (∀ server, mainOutput server = none ↔ (fetch_data server).1 = []) := by
  have hstop : ∀ (resp : GraphQLResponse) rest cursor acc,
      isFatalResponse resp = true →
      fetchLoop (resp :: rest) cursor acc = (acc, [cursor]) := by
    intro resp rest cursor acc hfatal
    cases resp with
    | ok nodes pinfo => simp [isFatalResponse] at hfatal
    | errorsPayload => simp [fetchLoop]
    | httpError code => simp [fetchLoop]
    | exn => simp [fetchLoop]
  refine ⟨hstop, ?_, ?_⟩
  · intro resp rest hfatal
    simp [mainOutput, fetch_data, hstop resp rest none [] hfatal]
  · intro server
    by_cases hd : (fetch_data server).1 = []
    · simp [mainOutput, List.isEmpty_iff, hd]
    · simp [mainOutput, List.isEmpty_iff, hd]

/-- Witness for `fatal_aborts_fetch_partial_output`: an exception on the
very first call gives an empty fetch and no output file. -/
theorem fatal_aborts_fetch_partial_output_witness :
    fetchLoop [GraphQLResponse.exn] none [] = ([], [none]) ∧
    mainOutput [GraphQLResponse.exn] = none := by
  have h := fatal_aborts_fetch_partial_output
  exact ⟨h.1 GraphQLResponse.exn [] none [] rfl,
    h.2.1 GraphQLResponse.exn [] rfl⟩

end RepoDetails
